import Mathlib

/-!
Verification of the Movie-Mixer recommendation core.

The Python source (src/src/preprocess.py, src/src/model.py, src/app.py) is
shallowly embedded below: pure helpers become Lean functions, pandas/numpy
values become lists, float arithmetic is idealised over `ℝ`, and Python
exceptions become `Except` values.
-/

namespace MovieMixer

/-! ### A model of Python values and the normalizers (src/src/preprocess.py)

`clean_genres` / `clean_keywords` feed a cell value through `pd.isna`, a
comparison with the literal `'[]'`, `ast.literal_eval`, the comprehension
`[g['name'] for g in parsed]` and `' '.join(...)`.  `ast.literal_eval` and the
join are Python-runtime functionality; their result values and exception
behaviour are modelled by `PyVal`, `PyErr` and the helpers below. -/

/-- Python literal values that `ast.literal_eval` can produce (the shapes that
matter to the normalizers: strings, ints, lists, dicts with string keys, None). -/
inductive PyVal where
  | pstr (s : String)
  | pint (n : Int)
  | plist (l : List PyVal)
  | pdict (entries : List (String × PyVal))
  | pnone

/-- Python exceptions reachable inside the normalizers' `try` block.
`valueOrSyntaxError` stands for `ValueError`/`SyntaxError` from
`ast.literal_eval`; the source's `except` clause catches those two and
`KeyError`, but not `TypeError`. -/
inductive PyErr where
  | typeError
  | keyError
  | valueOrSyntaxError
  deriving DecidableEq

/-- Python subscript `g['name']`: a dict looks the key up (later duplicate
keys in a dict literal overwrite earlier ones, hence the reversed lookup) and
raises `KeyError` when absent; subscripting a string, list, int or None with a
string raises `TypeError`. -/
def getName : PyVal → Except PyErr PyVal
  | .pdict es => match (es.reverse).lookup "name" with
      | some v => .ok v
      | none => .error .keyError
  | _ => .error .typeError

/-- Python iteration `for g in v`: lists yield their elements, strings yield
their characters as one-character strings, dicts yield their keys; ints and
None are not iterable (`TypeError`). -/
def pyIter : PyVal → Except PyErr (List PyVal)
  | .plist l => .ok l
  | .pstr s => .ok (s.toList.map fun c => .pstr (String.mk [c]))
  | .pdict es => .ok ((es.map Prod.fst).map fun k => .pstr k)
  | _ => .error .typeError

/-- The comprehension `[g['name'] for g in gs]`, evaluated left to right: the
first raised exception wins. -/
def mapGetName : List PyVal → Except PyErr (List PyVal)
  | [] => .ok []
  | g :: rest =>
      match getName g with
      | .error e => .error e
      | .ok v =>
          match mapGetName rest with
          | .error e => .error e
          | .ok vs => .ok (v :: vs)

/-- Python `str.join` element check, left to right: every joined item must be
a string, otherwise `TypeError`. -/
def mapAsStr : List PyVal → Except PyErr (List String)
  | [] => .ok []
  | .pstr s :: rest =>
      match mapAsStr rest with
      | .error e => .error e
      | .ok ss => .ok (s :: ss)
  | _ :: _ => .error .typeError

/-- The expression `' '.join([g['name'] for g in v])` from the source: iterate
`v`, subscript each element with `'name'`, then join with single spaces. -/
def joinNames (v : PyVal) : Except PyErr String :=
  match pyIter v with
  | .error e => .error e
  | .ok gs =>
      match mapGetName gs with
      | .error e => .error e
      | .ok vals =>
          match mapAsStr vals with
          | .error e => .error e
          | .ok strs => .ok (String.intercalate " " strs)

/-- Input domain of the normalizers.  A cell is a missing value (NaN/None), a
string, or some other scalar.  For a string, the outcome of
`ast.literal_eval` (Python stdlib, external to the repository) is carried by
the constructor: `strBad s` is a string on which it raises
`ValueError`/`SyntaxError`, `strVal s v` is a string it parses to `v`. -/
inductive RawField where
  | nan
  | strBad (s : String)
  | strVal (s : String) (v : PyVal)
  | nonString

/-- Shallow embedding of `clean_genres` (src/src/preprocess.py, lines 11-29):
NaN and the sentinel `'[]'` give `''`; a non-string gives `''`; for a string,
`ast.literal_eval` plus the join are attempted, with `ValueError`,
`SyntaxError` and `KeyError` caught (giving `''`) while `TypeError`
propagates. -/
def clean_genres : RawField → Except PyErr String
  | .nan => .ok ""
  | .nonString => .ok ""
  | .strBad s => if s = "[]" then .ok "" else .ok ""
  | .strVal s v =>
      if s = "[]" then .ok ""
      else
        match joinNames v with
        | .ok out => .ok out
        | .error .keyError => .ok ""
        | .error .valueOrSyntaxError => .ok ""
        | .error .typeError => .error .typeError

/-- Shallow embedding of `clean_keywords` (src/src/preprocess.py, lines
32-50); the body is the same as `clean_genres` applied to the keywords cell. -/
def clean_keywords : RawField → Except PyErr String
  | .nan => .ok ""
  | .nonString => .ok ""
  | .strBad s => if s = "[]" then .ok "" else .ok ""
  | .strVal s v =>
      if s = "[]" then .ok ""
      else
        match joinNames v with
        | .ok out => .ok out
        | .error .keyError => .ok ""
        | .error .valueOrSyntaxError => .ok ""
        | .error .typeError => .error .typeError

/-- A parsed element the normalizers digest without an uncaught exception: a
dict whose `name` entry, when present, holds a string. -/
def goodElem : PyVal → Bool
  | .pdict es => match (es.reverse).lookup "name" with
      | some (.pstr _) => true
      | some _ => false
      | none => true
  | _ => false

/-- Inputs on which the normalizers cannot raise: anything except a string
that parses to something other than a list of `goodElem` dicts. -/
def safeField : RawField → Bool
  | .strVal s v =>
      s = "[]" ||
        (match v with
         | .plist l => l.all goodElem
         | _ => false)
  | _ => true

theorem mapGetName_of_all_good (l : List PyVal) (h : l.all goodElem = true) :
    (∃ vals, mapGetName l = .ok vals ∧ mapAsStr vals ≠ .error PyErr.typeError) ∨
      mapGetName l = .error PyErr.keyError := by
  induction l with
  | nil => exact Or.inl ⟨[], rfl, by simp [mapAsStr]⟩
  | cons g rest ih =>
      simp only [List.all_cons, Bool.and_eq_true] at h
      obtain ⟨hg, hrest⟩ := h
      cases g with
      | pdict es =>
          simp only [goodElem] at hg
          cases hlk : (es.reverse).lookup "name" with
          | none =>
              refine Or.inr ?_
              simp [mapGetName, getName, hlk]
          | some v =>
              rw [hlk] at hg
              cases v with
              | pstr s =>
                  rcases ih hrest with ⟨vals, hv, hstr⟩ | herr
                  · refine Or.inl ⟨PyVal.pstr s :: vals, ?_, ?_⟩
                    · simp [mapGetName, getName, hlk, hv]
                    · intro hcon
                      rw [mapAsStr] at hcon
                      cases hms : mapAsStr vals with
                      | ok ss => rw [hms] at hcon; exact absurd hcon (by simp)
                      | error e =>
                          rw [hms] at hcon
                          have he : e = PyErr.typeError := by
                            cases hcon; rfl
                          exact hstr (by rw [hms, he])
                  · refine Or.inr ?_
                    simp [mapGetName, getName, hlk, herr]
              | pint n => simp at hg
              | plist l2 => simp at hg
              | pdict es2 => simp at hg
              | pnone => simp at hg
      | pstr s => simp [goodElem] at hg
      | pint n => simp [goodElem] at hg
      | plist l2 => simp [goodElem] at hg
      | pnone => simp [goodElem] at hg

theorem clean_genres_safe (i : RawField) (h : safeField i = true) :
    ∃ out, clean_genres i = .ok out := by
  cases i with
  | nan => exact ⟨"", rfl⟩
  | nonString => exact ⟨"", rfl⟩
  | strBad s =>
      by_cases hs : s = "[]" <;> simp [clean_genres, hs]
  | strVal s v =>
      by_cases hs : s = "[]"
      · simp [clean_genres, hs]
      · simp only [safeField, hs, decide_eq_false, Bool.false_or] at h
        cases v with
        | plist l =>
            rcases mapGetName_of_all_good l h with ⟨vals, hv, hstr⟩ | herr
            · cases hms : mapAsStr vals with
              | ok ss =>
                  refine ⟨String.intercalate " " ss, ?_⟩
                  simp [clean_genres, hs, joinNames, pyIter, hv, hms]
              | error e =>
                  cases e with
                  | typeError => exact absurd (by rw [hms]) hstr
                  | keyError =>
                      refine ⟨"", ?_⟩
                      simp [clean_genres, hs, joinNames, pyIter, hv, hms]
                  | valueOrSyntaxError =>
                      refine ⟨"", ?_⟩
                      simp [clean_genres, hs, joinNames, pyIter, hv, hms]
            · refine ⟨"", ?_⟩
              simp [clean_genres, hs, joinNames, pyIter, herr]
        | pstr s2 => simp at h
        | pint n => simp at h
        | pdict es => simp at h
        | pnone => simp at h

theorem clean_keywords_eq_clean_genres (i : RawField) :
    clean_keywords i = clean_genres i := by
  cases i <;> rfl

/-- C8: claimed — the normalizers never raise on any input.  Refuted: the
string `"[1]"` parses to the Python list `[1]`; the comprehension then
subscripts the int `1` with `'name'`, raising a `TypeError`, which the
`except (ValueError, SyntaxError, KeyError)` clause does not catch, so the
exception propagates out of `clean_genres` / `clean_keywords`. -/
theorem C8_counterexample :
    clean_genres (RawField.strVal "[1]" (PyVal.plist [PyVal.pint 1])) =
        .error PyErr.typeError ∧
      clean_keywords (RawField.strVal "[1]" (PyVal.plist [PyVal.pint 1])) =
        .error PyErr.typeError := by
  constructor <;> rfl

/-- C8 (amended): on missing/NaN input, non-string input, unparseable
strings, the `[]` sentinel, and strings parsing to a list of dicts whose
`name` entries (when present) are strings, the normalizers never raise: every
decoding failure in that domain yields a plain string result (empty on
failure).  Beyond that domain exception-safety is lost: `safeField` is a
sufficient condition only (some inputs outside it, such as a parsed empty
dict, still return `''`), and at the string `"[1]"` an uncaught `TypeError`
propagates, as the counterexample above shows. -/
theorem C8_normalizers_total_on_safe_inputs (i : RawField)
    (h : safeField i = true) :
    (∃ out, clean_genres i = .ok out) ∧ ∃ out, clean_keywords i = .ok out := by
  refine ⟨clean_genres_safe i h, ?_⟩
  rcases clean_genres_safe i h with ⟨out, hout⟩
  exact ⟨out, by rw [clean_keywords_eq_clean_genres, hout]⟩

/-- C8 witness: a well-formed genre cell is decoded without an exception. -/
theorem C8_witness :
    safeField (RawField.strVal "x"
        (PyVal.plist [PyVal.pdict [("name", PyVal.pstr "Action")]])) = true ∧
      ((∃ out, clean_genres (RawField.strVal "x"
        (PyVal.plist [PyVal.pdict [("name", PyVal.pstr "Action")]])) = .ok out) ∧
      ∃ out, clean_keywords (RawField.strVal "x"
        (PyVal.plist [PyVal.pdict [("name", PyVal.pstr "Action")]])) = .ok out) :=
  ⟨by rfl,
   C8_normalizers_total_on_safe_inputs
     (RawField.strVal "x" (PyVal.plist [PyVal.pdict [("name", PyVal.pstr "Action")]]))
     (by rfl)⟩

/-! ### The vector-space builder (sklearn `TfidfVectorizer(stop_words='english')`)

`MovieRecommender.fit` (src/src/model.py, lines 27-44) delegates
vectorization to scikit-learn.  The library's documented behaviour with the
source's settings is embedded here: tokenize on word boundaries keeping
tokens of at least two word characters, lowercase, drop the built-in English
stop words, weight by term frequency times smoothed idf
(`ln((1+n)/(1+df)) + 1`), and L2-normalize each row (zero rows untouched).
Floating-point arithmetic is idealised over `ℝ`. -/

/-- Word characters of sklearn's default `token_pattern r"(?u)\b\w\w+\b"`. -/
def isWordChar (c : Char) : Bool := c.isAlphanum || c = '_'

/-- sklearn tokenizer with `lowercase=True`: maximal runs of word characters,
keeping only runs of length at least two, lowercased. -/
def tokenize (s : String) : List String :=
  (((s.toList.map Char.toLower).splitOnP (fun c => !isWordChar c)).filter
      (fun w => 2 ≤ w.length)).map (fun w => String.mk w)

/-- Modelled from sklearn: the built-in `ENGLISH_STOP_WORDS` frozenset
selected by `stop_words='english'` (library data, external to the
repository).  None of the theorems below depends on the exact membership of
this list; the fitting model is parametrised over an arbitrary stop-word
list `sw`, and this constant only instantiates concrete runs. -/
def englishStopWords : List String :=
  ["a", "about", "above", "across", "after", "afterwards", "again", "against",
   "all", "almost", "alone", "along", "already", "also", "although", "always",
   "am", "among", "amongst", "amoungst", "amount", "an", "and", "another",
   "any", "anyhow", "anyone", "anything", "anyway", "anywhere", "are",
   "around", "as", "at", "back", "be", "became", "because", "become",
   "becomes", "becoming", "been", "before", "beforehand", "behind", "being",
   "below", "beside", "besides", "between", "beyond", "bill", "both",
   "bottom", "but", "by", "call", "can", "cannot", "cant", "co", "con",
   "could", "couldnt", "cry", "de", "describe", "detail", "do", "done",
   "down", "due", "during", "each", "eg", "eight", "either", "eleven",
   "else", "elsewhere", "empty", "enough", "etc", "even", "ever", "every",
   "everyone", "everything", "everywhere", "except", "few", "fifteen",
   "fifty", "fill", "find", "fire", "first", "five", "for", "former",
   "formerly", "forty", "found", "four", "from", "front", "full", "further",
   "get", "give", "go", "had", "has", "hasnt", "have", "he", "hence", "her",
   "here", "hereafter", "hereby", "herein", "hereupon", "hers", "herself",
   "him", "himself", "his", "how", "however", "hundred", "i", "ie", "if",
   "in", "inc", "indeed", "interest", "into", "is", "it", "its", "itself",
   "keep", "last", "latter", "latterly", "least", "less", "ltd", "made",
   "many", "may", "me", "meanwhile", "might", "mill", "mine", "more",
   "moreover", "most", "mostly", "move", "much", "must", "my", "myself",
   "name", "namely", "neither", "never", "nevertheless", "next", "nine",
   "no", "nobody", "none", "noone", "nor", "not", "nothing", "now",
   "nowhere", "of", "off", "often", "on", "once", "one", "only", "onto",
   "or", "other", "others", "otherwise", "our", "ours", "ourselves", "out",
   "over", "own", "part", "per", "perhaps", "please", "put", "rather", "re",
   "same", "see", "seem", "seemed", "seeming", "seems", "serious", "several",
   "she", "should", "show", "side", "since", "sincere", "six", "sixty", "so",
   "some", "somehow", "someone", "something", "sometime", "sometimes",
   "somewhere", "still", "such", "system", "take", "ten", "than", "that",
   "the", "their", "them", "themselves", "then", "thence", "there",
   "thereafter", "thereby", "therefore", "therein", "thereupon", "these",
   "they", "thick", "thin", "third", "this", "those", "though", "three",
   "through", "throughout", "thru", "thus", "to", "together", "too", "top",
   "toward", "towards", "twelve", "twenty", "two", "un", "under", "until",
   "up", "upon", "us", "very", "via", "was", "we", "well", "were", "what",
   "whatever", "when", "whence", "whenever", "where", "whereafter",
   "whereas", "whereby", "wherein", "whereupon", "wherever", "whether",
   "which", "while", "whither", "who", "whoever", "whole", "whom", "whose",
   "why", "will", "with", "within", "without", "would", "yet", "you",
   "your", "yours", "yourself", "yourselves"]

/-- Stop-word removal after tokenization. -/
def removeStopWords (sw : List String) (toks : List String) : List String :=
  toks.filter (fun t => !sw.contains t)

/-- The analyzer applied to one document: tokenize, then drop stop words. -/
def analyze (sw : List String) (doc : String) : List String :=
  removeStopWords sw (tokenize doc)

/-- Vocabulary of the fitted vectorizer: the distinct surviving tokens of the
corpus.  (sklearn additionally sorts the vocabulary alphabetically; the
dimension order is irrelevant to every property below, since similarities sum
over all dimensions.) -/
def vocabulary (sw : List String) (docs : List String) : List String :=
  ((docs.map (analyze sw)).flatten).dedup

/-- Raw term frequency of `t` in an analyzed document. -/
def tf (t : String) (toks : List String) : Nat := toks.count t

/-- Document frequency of token `t` across the corpus. -/
def docFreq (sw : List String) (docs : List String) (t : String) : Nat :=
  (docs.filter (fun d => (analyze sw d).contains t)).length

/-- Smoothed inverse document frequency, sklearn's default
(`smooth_idf=True`): `ln((1+n)/(1+df)) + 1`. -/
noncomputable def idf (sw : List String) (docs : List String) (t : String) : ℝ :=
  Real.log ((1 + (docs.length : ℝ)) / (1 + (docFreq sw docs t : ℝ))) + 1

/-- Unnormalized tf-idf row of one document against the fitted vocabulary. -/
noncomputable def rawVec (sw : List String) (docs : List String) (d : String) :
    List ℝ :=
  (vocabulary sw docs).map (fun t => (tf t (analyze sw d) : ℝ) * idf sw docs t)

/-- Sum of squares of a vector (the square of its L2 norm). -/
def sumSq (v : List ℝ) : ℝ := (v.map (fun x => x * x)).sum

/-- L2 normalization as sklearn's `normalize` performs it: all-zero rows are
returned unchanged, any other row is divided by its L2 norm. -/
noncomputable def l2normalize (v : List ℝ) : List ℝ :=
  if sumSq v = 0 then v else v.map (fun x => x / Real.sqrt (sumSq v))

/-- Row `i` of the fitted `tfidf_matrix` (src/src/model.py, line 38). -/
noncomputable def itemVector (sw : List String) (docs : List String) (i : Nat) :
    List ℝ :=
  l2normalize (rawVec sw docs (docs.getD i ""))

/-- The fitted `tfidf_matrix` as a list of rows. -/
noncomputable def tfidfMatrix (sw : List String) (docs : List String) :
    List (List ℝ) :=
  (List.range docs.length).map (itemVector sw docs)

theorem sumSq_cons (x : ℝ) (v : List ℝ) : sumSq (x :: v) = x * x + sumSq v := by
  simp [sumSq]

theorem sumSq_nonneg (v : List ℝ) : 0 ≤ sumSq v := by
  refine List.sum_nonneg ?_
  intro y hy
  obtain ⟨x, _, rfl⟩ := List.mem_map.mp hy
  exact mul_self_nonneg x

theorem sumSq_eq_zero_iff (v : List ℝ) : sumSq v = 0 ↔ ∀ x ∈ v, x = 0 := by
  induction v with
  | nil => simp [sumSq]
  | cons x xs ih =>
      rw [sumSq_cons,
        add_eq_zero_iff_of_nonneg (mul_self_nonneg x) (sumSq_nonneg xs),
        mul_self_eq_zero, ih]
      simp

theorem sumSq_map_div (v : List ℝ) (c : ℝ) :
    sumSq (v.map (fun x => x / c)) = sumSq v / (c * c) := by
  induction v with
  | nil => simp [sumSq]
  | cons x xs ih =>
      rw [List.map_cons, sumSq_cons, ih, sumSq_cons, add_div, div_mul_div_comm]

theorem l2normalize_sumSq (v : List ℝ) (h : sumSq v ≠ 0) :
    sumSq (l2normalize v) = 1 := by
  rw [l2normalize, if_neg h, sumSq_map_div, Real.mul_self_sqrt (sumSq_nonneg v),
    div_self h]

theorem docFreq_le_length (sw : List String) (docs : List String) (t : String) :
    docFreq sw docs t ≤ docs.length :=
  List.length_filter_le _ _

theorem one_le_idf (sw : List String) (docs : List String) (t : String) :
    1 ≤ idf sw docs t := by
  rw [idf]
  have h1 : (0 : ℝ) < 1 + (docFreq sw docs t : ℝ) := by positivity
  have h2 : (1 + (docFreq sw docs t : ℝ)) ≤ 1 + (docs.length : ℝ) := by
    have := docFreq_le_length sw docs t
    have : (docFreq sw docs t : ℝ) ≤ (docs.length : ℝ) := by exact_mod_cast this
    linarith
  have hlog :
      0 ≤ Real.log ((1 + (docs.length : ℝ)) / (1 + (docFreq sw docs t : ℝ))) :=
    Real.log_nonneg ((one_le_div h1).mpr h2)
  linarith

theorem analyze_empty_str (sw : List String) : analyze sw "" = [] := rfl

theorem rawVec_zero_of_analyze_nil (sw : List String) (docs : List String)
    (d : String) (h : analyze sw d = []) : ∀ x ∈ rawVec sw docs d, x = 0 := by
  intro x hx
  obtain ⟨t, _, rfl⟩ := List.mem_map.mp hx
  rw [h]
  simp [tf]

theorem mem_vocabulary (sw : List String) (docs : List String) (d : String)
    (t : String) (hd : d ∈ docs) (ht : t ∈ analyze sw d) :
    t ∈ vocabulary sw docs := by
  rw [vocabulary, List.mem_dedup, List.mem_flatten]
  exact ⟨analyze sw d, List.mem_map_of_mem _ hd, ht⟩

theorem rawVec_pos_entry (sw : List String) (docs : List String) (d : String)
    (hd : d ∈ docs) (hne : analyze sw d ≠ []) :
    ∃ x ∈ rawVec sw docs d, 0 < x := by
  obtain ⟨t0, ht0⟩ : ∃ t0, t0 ∈ analyze sw d := by
    cases h : analyze sw d with
    | nil => exact absurd h hne
    | cons a as => exact ⟨a, h ▸ List.mem_cons_self a as⟩
  refine ⟨(tf t0 (analyze sw d) : ℝ) * idf sw docs t0,
    List.mem_map_of_mem _ (mem_vocabulary sw docs d t0 hd ht0), ?_⟩
  have htf : 0 < tf t0 (analyze sw d) := List.count_pos_iff.mpr ht0
  have htf1 : (1 : ℝ) ≤ (tf t0 (analyze sw d) : ℝ) := by exact_mod_cast htf
  have hidf : (1 : ℝ) ≤ idf sw docs t0 := one_le_idf sw docs t0
  nlinarith

/-- C7: after fit, every item vector either has squared L2 norm exactly 1
(the idealisation over `ℝ` of "norm ≈ 1 up to floating point"), or is the
all-zero vector, and the all-zero case occurs exactly when the document
yields no surviving token after tokenization and stop-word removal. -/
theorem C7_item_vectors_unit_or_zero (sw : List String) (docs : List String)
    (i : Nat) :
    (sumSq (itemVector sw docs i) = 1 ∨ ∀ x ∈ itemVector sw docs i, x = 0) ∧
      ((∀ x ∈ itemVector sw docs i, x = 0) ↔
        analyze sw (docs.getD i "") = []) := by
  by_cases hA : analyze sw (docs.getD i "") = []
  · have hraw : ∀ x ∈ rawVec sw docs (docs.getD i ""), x = 0 :=
      rawVec_zero_of_analyze_nil sw docs _ hA
    have hs : sumSq (rawVec sw docs (docs.getD i "")) = 0 :=
      (sumSq_eq_zero_iff _).mpr hraw
    have hiv : itemVector sw docs i = rawVec sw docs (docs.getD i "") := by
      rw [itemVector, l2normalize, if_pos hs]
    refine ⟨Or.inr ?_, ?_, ?_⟩
    · rw [hiv]; exact hraw
    · intro _; exact hA
    · intro _; rw [hiv]; exact hraw
  · have hi : i < docs.length := by
      by_contra hge
      push_neg at hge
      rw [List.getD_eq_default _ _ hge] at hA
      exact hA (analyze_empty_str sw)
    have hd : docs.getD i "" ∈ docs := by
      rw [List.getD_eq_getElem _ _ hi]
      exact List.getElem_mem hi
    obtain ⟨x, hx, hxpos⟩ := rawVec_pos_entry sw docs _ hd hA
    have hsne : sumSq (rawVec sw docs (docs.getD i "")) ≠ 0 := by
      intro h0
      have := (sumSq_eq_zero_iff _).mp h0 x hx
      linarith
    have h1 : sumSq (itemVector sw docs i) = 1 := l2normalize_sumSq _ hsne
    have hnz : ¬ ∀ y ∈ itemVector sw docs i, y = 0 := by
      intro hall
      have hspos : 0 < sumSq (rawVec sw docs (docs.getD i "")) :=
        lt_of_le_of_ne (sumSq_nonneg _) (Ne.symm hsne)
      have hmem :
          x / Real.sqrt (sumSq (rawVec sw docs (docs.getD i ""))) ∈
            itemVector sw docs i := by
        rw [itemVector, l2normalize, if_neg hsne]
        exact List.mem_map_of_mem _ hx
      have hz := hall _ hmem
      have hsqrt : 0 < Real.sqrt (sumSq (rawVec sw docs (docs.getD i ""))) :=
        Real.sqrt_pos.mpr hspos
      rw [div_eq_zero_iff] at hz
      rcases hz with h | h
      · linarith
      · linarith
    exact ⟨Or.inl h1, fun hall => absurd hall hnz, fun h => absurd h hA⟩

/-! ### The catalog, the identifier index and `fit` (src/src/model.py)

After the loader's `reset_index(drop=True)` the DataFrame index equals the
row position, so `pd.Series(movies.index, index=movies['id']).to_dict()`
inserts the pairs `(id_i, i)` in row order into a Python dict. -/

/-- One row of the movies DataFrame, restricted to the columns `fit` and
`recommend` touch. -/
structure Movie where
  id : Int
  title : String
  overview : String
  vote_average : ℚ
  poster_path : String
  genres_str : String
  combined : String
  deriving DecidableEq, Inhabited

/-- The column selection
`[['id', 'title', 'overview', 'vote_average', 'poster_path', 'genres_str']]`
performed at the end of `recommend` (src/src/model.py, lines 92-94). -/
structure RecRow where
  id : Int
  title : String
  overview : String
  vote_average : ℚ
  poster_path : String
  genres_str : String
  deriving DecidableEq, Inhabited

def selectCols (m : Movie) : RecRow :=
  ⟨m.id, m.title, m.overview, m.vote_average, m.poster_path, m.genres_str⟩

/-- Python dict assignment `d[k] = v` on an association list: an existing
binding of `k` is overwritten in place, a new key is appended at the end. -/
def dictInsert : List (Int × Nat) → Int → Nat → List (Int × Nat)
  | [], k, v => [(k, v)]
  | p :: ps, k, v => if p.1 = k then (k, v) :: ps else p :: dictInsert ps k v

/-- Python dict lookup `d[k]` / membership `k in d`. -/
def dictLookup : List (Int × Nat) → Int → Option Nat
  | [], _ => none
  | p :: ps, k => if p.1 = k then some p.2 else dictLookup ps k

/-- Shallow embedding of
`pd.Series(movies.index, index=movies['id']).to_dict()`
(src/src/model.py, line 44): the pairs `(id_i, i)` are inserted in row order,
so a duplicated identifier ends up bound to its last row. -/
def buildDict (ids : List Int) : List (Int × Nat) :=
  (ids.enum.map (fun p => (p.2, p.1))).foldl (fun d p => dictInsert d p.1 p.2) []

/-- The `id_to_index` field computed by `fit`. -/
def id_to_index (movies : List Movie) : List (Int × Nat) :=
  buildDict (movies.map Movie.id)

/-- Index of the last occurrence of a value in a list. -/
def lastIdx : List Int → Int → Option Nat
  | [], _ => none
  | a :: as, idv =>
      match lastIdx as idv with
      | some k => some (k + 1)
      | none => if a = idv then some 0 else none

theorem dictLookup_dictInsert (d : List (Int × Nat)) (k : Int) (v : Nat)
    (k2 : Int) :
    dictLookup (dictInsert d k v) k2 =
      if k = k2 then some v else dictLookup d k2 := by
  induction d with
  | nil =>
      by_cases h : k = k2 <;> simp [dictInsert, dictLookup, h]
  | cons p ps ih =>
      by_cases hp : p.1 = k
      · rw [dictInsert, if_pos hp]
        by_cases h : k = k2
        · simp [dictLookup, h]
        · have hp2 : p.1 ≠ k2 := by rw [hp]; exact h
          simp [dictLookup, h, hp2, hp]
      · rw [dictInsert, if_neg hp]
        by_cases h2 : p.1 = k2
        · have hk : k ≠ k2 := by intro he; exact hp (he ▸ h2)
          simp [dictLookup, h2, hk]
        · simp [dictLookup, h2, ih]

/-- Latest value bound to a key by a sequence of insertions. -/
def lastVal : List (Int × Nat) → Int → Option Nat
  | [], _ => none
  | p :: ps, k =>
      match lastVal ps k with
      | some v => some v
      | none => if p.1 = k then some p.2 else none

theorem dictLookup_foldl (ps : List (Int × Nat)) (d : List (Int × Nat))
    (k : Int) :
    dictLookup (ps.foldl (fun d p => dictInsert d p.1 p.2) d) k =
      match lastVal ps k with
      | some v => some v
      | none => dictLookup d k := by
  induction ps generalizing d with
  | nil => rfl
  | cons p ps ih =>
      rw [List.foldl_cons, ih]
      cases h : lastVal ps k with
      | some v => simp [lastVal, h]
      | none =>
          simp only [lastVal, h, dictLookup_dictInsert]
          by_cases hpk : p.1 = k <;> simp [hpk]

theorem lastVal_enumFrom (ids : List Int) (n : Nat) (idv : Int) :
    lastVal ((ids.enumFrom n).map (fun p => (p.2, p.1))) idv =
      (lastIdx ids idv).map (fun k => n + k) := by
  induction ids generalizing n with
  | nil => rfl
  | cons a as ih =>
      simp only [List.enumFrom, List.map_cons, lastVal, ih (n + 1), lastIdx]
      cases h : lastIdx as idv with
      | some k =>
          have harith : n + 1 + k = n + (k + 1) := by omega
          simp [harith]
      | none =>
          by_cases ha : a = idv <;> simp [ha]

theorem dictLookup_buildDict (ids : List Int) (idv : Int) :
    dictLookup (buildDict ids) idv = lastIdx ids idv := by
  rw [buildDict, dictLookup_foldl]
  have he : ids.enum = ids.enumFrom 0 := rfl
  rw [he, lastVal_enumFrom]
  cases h : lastIdx ids idv with
  | some k => simp
  | none => simp [dictLookup]

theorem lastIdx_eq_none_iff (ids : List Int) (idv : Int) :
    lastIdx ids idv = none ↔ idv ∉ ids := by
  induction ids with
  | nil => simp [lastIdx]
  | cons a as ih =>
      rw [lastIdx]
      cases h : lastIdx as idv with
      | some k =>
          have hmem : idv ∈ as := by
            by_contra hm
            rw [ih.mpr hm] at h
            exact absurd h (by simp)
          simp [List.mem_cons, hmem]
      | none =>
          have hm : idv ∉ as := ih.mp h
          by_cases ha : a = idv
          · subst ha
            simp
          · rw [if_neg ha]
            constructor
            · intro _
              simp only [List.mem_cons]
              rintro (hc | hc)
              · exact ha hc.symm
              · exact hm hc
            · intro _
              rfl

theorem lastIdx_spec (ids : List Int) (idv : Int) (k : Nat)
    (h : lastIdx ids idv = some k) :
    k < ids.length ∧ ids.getD k 0 = idv ∧
      ∀ j, k < j → j < ids.length → ids.getD j 0 ≠ idv := by
  induction ids generalizing k with
  | nil => exact absurd h (by simp [lastIdx])
  | cons a as ih =>
      rw [lastIdx] at h
      cases hrec : lastIdx as idv with
      | some k2 =>
          rw [hrec] at h
          have hk : k = k2 + 1 := by
            cases h; rfl
          subst hk
          obtain ⟨h1, h2, h3⟩ := ih k2 hrec
          refine ⟨by simp only [List.length_cons]; omega, ?_, ?_⟩
          · rw [List.getD_cons_succ]
            exact h2
          · intro j hj hjlen
            cases j with
            | zero => omega
            | succ j2 =>
                rw [List.getD_cons_succ]
                exact h3 j2 (by omega) (by simp only [List.length_cons] at hjlen; omega)
      | none =>
          rw [hrec] at h
          by_cases ha : a = idv
          · rw [if_pos ha] at h
            have hk : k = 0 := by cases h; rfl
            subst hk
            refine ⟨by simp, by simpa using ha, ?_⟩
            intro j hj hjlen
            cases j with
            | zero => omega
            | succ j2 =>
                have hmem : idv ∉ as := (lastIdx_eq_none_iff as idv).mp hrec
                have hlt : j2 < as.length := by
                  simp only [List.length_cons] at hjlen
                  omega
                rw [List.getD_cons_succ]
                intro hc
                apply hmem
                rw [List.getD_eq_getElem _ _ hlt] at hc
                exact hc ▸ List.getElem_mem hlt
          · rw [if_neg ha] at h
            exact absurd h (by simp)

/-- C3: claimed — `fit` on a catalog with a duplicate identifier fails with
an `InvalidCatalog` condition.  Refuted: `fit` performs no uniqueness check
at all; on a catalog whose first two rows share the identifier 7 it completes
normally and silently builds the index, binding 7 to row 1. -/
theorem C3_counterexample :
    id_to_index
        [{ id := 7, title := "A", overview := "", vote_average := 0,
           poster_path := "", genres_str := "", combined := "action" },
         { id := 7, title := "B", overview := "", vote_average := 0,
           poster_path := "", genres_str := "", combined := "drama" },
         { id := 9, title := "C", overview := "", vote_average := 0,
           poster_path := "", genres_str := "", combined := "war" }] =
      [(7, 1), (9, 2)] := by
  rfl

/-- C3 (amended): `fit` never fails on duplicate identifiers — it completes
normally on every catalog and maps every identifier present in the catalog
to some row (the last one bearing it; uniqueness is the loader's problem and
the core never checks it). -/
theorem C3_fit_total_on_duplicates (movies : List Movie) (idv : Int)
    (h : idv ∈ movies.map Movie.id) :
    ∃ k, dictLookup (id_to_index movies) idv = some k := by
  rw [id_to_index, dictLookup_buildDict]
  cases hl : lastIdx (movies.map Movie.id) idv with
  | some k => exact ⟨k, rfl⟩
  | none => exact absurd h ((lastIdx_eq_none_iff _ _).mp hl)

/-- C3 witness: on the duplicate catalog of the counterexample, `fit`
completes and identifier 7 is mapped. -/
theorem C3_witness :
    (7 : Int) ∈
        ([{ id := 7, title := "A", overview := "", vote_average := 0,
            poster_path := "", genres_str := "", combined := "action" },
          { id := 7, title := "B", overview := "", vote_average := 0,
            poster_path := "", genres_str := "", combined := "drama" }] :
          List Movie).map Movie.id ∧
      ∃ k, dictLookup (id_to_index
        [{ id := 7, title := "A", overview := "", vote_average := 0,
           poster_path := "", genres_str := "", combined := "action" },
         { id := 7, title := "B", overview := "", vote_average := 0,
           poster_path := "", genres_str := "", combined := "drama" }]) 7 =
        some k :=
  ⟨by decide,
   C3_fit_total_on_duplicates _ 7 (by decide)⟩

/-- C10: when the catalog contains duplicate identifiers, `fit` completes
without error and `id_to_index` binds each identifier to the position of its
last occurrence in catalog order (`recommend` then looks rows up through this
same mapping — see the definition of `recommend`). -/
theorem C10_last_occurrence_wins (movies : List Movie) (idv : Int)
    (h : idv ∈ movies.map Movie.id) :
    ∃ k, dictLookup (id_to_index movies) idv = some k ∧
      k < movies.length ∧ (movies.map Movie.id).getD k 0 = idv ∧
      ∀ j, k < j → j < movies.length → (movies.map Movie.id).getD j 0 ≠ idv := by
  rw [id_to_index, dictLookup_buildDict]
  cases hl : lastIdx (movies.map Movie.id) idv with
  | none => exact absurd h ((lastIdx_eq_none_iff _ _).mp hl)
  | some k =>
      obtain ⟨h1, h2, h3⟩ := lastIdx_spec _ _ _ hl
      rw [List.length_map] at h1
      refine ⟨k, rfl, h1, h2, ?_⟩
      intro j hj hjlen
      exact h3 j hj (by simpa using hjlen)

/-- C10 witness: in a catalog listing identifier 5 at rows 0 and 2, lookup
returns row 2. -/
theorem C10_witness :
    ∃ k, dictLookup (id_to_index
        [{ id := 5, title := "A", overview := "", vote_average := 0,
           poster_path := "", genres_str := "", combined := "a" },
         { id := 6, title := "B", overview := "", vote_average := 0,
           poster_path := "", genres_str := "", combined := "b" },
         { id := 5, title := "C", overview := "", vote_average := 0,
           poster_path := "", genres_str := "", combined := "c" }]) 5 =
        some k ∧ k < 3 ∧
      (([{ id := 5, title := "A", overview := "", vote_average := 0,
           poster_path := "", genres_str := "", combined := "a" },
         { id := 6, title := "B", overview := "", vote_average := 0,
           poster_path := "", genres_str := "", combined := "b" },
         { id := 5, title := "C", overview := "", vote_average := 0,
           poster_path := "", genres_str := "", combined := "c" }] :
          List Movie).map Movie.id).getD k 0 = 5 ∧
      ∀ j, k < j → j < 3 →
        (([{ id := 5, title := "A", overview := "", vote_average := 0,
             poster_path := "", genres_str := "", combined := "a" },
           { id := 6, title := "B", overview := "", vote_average := 0,
             poster_path := "", genres_str := "", combined := "b" },
           { id := 5, title := "C", overview := "", vote_average := 0,
             poster_path := "", genres_str := "", combined := "c" }] :
            List Movie).map Movie.id).getD j 0 ≠ 5 :=
  C10_last_occurrence_wins _ 5 (by decide)

/-! ### The similarity ranker and `recommend` (src/src/model.py, lines 46-96)

`recommend` builds the hybrid vector with `np.minimum`, scores the catalog
with `cosine_similarity`, writes `-1` over the two query rows, and selects
`similarities.argsort()[-top_n:][::-1]`. -/

/-- Dot product of two rows. -/
def dot (u v : List ℝ) : ℝ := (List.zipWith (fun x y => x * y) u v).sum

/-- sklearn `cosine_similarity` of two rows: both are L2-normalized (rows of
zero norm are left zero, giving similarity 0) and then dotted. -/
noncomputable def cosineSim (u v : List ℝ) : ℝ :=
  dot (l2normalize u) (l2normalize v)

/-- Element-wise `np.minimum` of the two query rows (src/src/model.py,
line 79) — the hybrid "soft intersection", the spec's `synthesize`. -/
noncomputable def synthesize (u v : List ℝ) : List ℝ := List.zipWith min u v

/-- The `similarities` array right after the sentinel writes
`similarities[idx1] = -1; similarities[idx2] = -1` (lines 82-86). -/
noncomputable def simScores (sw : List String) (movies : List Movie)
    (idx1 idx2 : Nat) : List ℝ :=
  let M := tfidfMatrix sw (movies.map Movie.combined)
  let hybrid := synthesize (M.getD idx1 []) (M.getD idx2 [])
  ((M.map (fun row => cosineSim row hybrid)).set idx1 (-1)).set idx2 (-1)

/-- Python slice `l[-k:]`: for `k = 0` the whole list, otherwise the last
`min k (length l)` elements. -/
def pySliceLast (k : Nat) (l : List Nat) : List Nat :=
  if k = 0 then l else l.drop (l.length - k)

/-- Stable insertion of index `i` into an index list ascending by score:
`i` goes after every entry of score ≤ its own. -/
noncomputable def insertIdx (v : List ℝ) (i : Nat) : List Nat → List Nat
  | [] => [i]
  | j :: rest =>
      if v.getD j 0 ≤ v.getD i 0 then j :: insertIdx v i rest
      else i :: j :: rest

/-- Model of `numpy.argsort` (ascending, ties in ascending index order).
numpy's default introsort is deterministic; on arrays below 16 elements —
all the concrete runs below — it degenerates to an insertion sort, which is
exactly this stable order. -/
noncomputable def argsort (v : List ℝ) : List Nat :=
  (List.range v.length).foldl (fun acc i => insertIdx v i acc) []

/-- The selection `similarities.argsort()[-top_n:][::-1]` (line 89). -/
noncomputable def topIndices (top_n : Nat) (sims : List ℝ) : List Nat :=
  (pySliceLast top_n (argsort sims)).reverse

/-- Shallow embedding of `MovieRecommender.recommend` (src/src/model.py,
lines 46-96).  The fitted instance is determined by the stop-word list and
the stored catalog; `tfidfMatrix` and `id_to_index` are the fields `fit`
computed from them. -/
noncomputable def recommend (sw : List String) (movies : List Movie)
    (movie_id1 movie_id2 : Int) (top_n : Nat) : Except String (List RecRow) :=
  match dictLookup (id_to_index movies) movie_id1,
      dictLookup (id_to_index movies) movie_id2 with
  | some idx1, some idx2 =>
      .ok ((topIndices top_n (simScores sw movies idx1 idx2)).map
        (fun i => selectCols (movies.getD i default)))
  | _, _ => .error "One of the movie IDs not found."

/-- The fitted state a `MovieRecommender` instance holds after `fit`: the
vectorizer configuration (its stop-word list) and the stored catalog, from
which `tfidf_matrix` and `id_to_index` are derived. -/
structure FittedState where
  sw : List String
  movies : List Movie

/-- The `recommend` method together with its effect on the fitted instance:
the body reads `self.tfidf_matrix`, `self.id_to_index` and `self.movies` and
assigns only to call-local arrays (`similarities` is a fresh array per call;
the sentinel writes hit that local copy), so the post-call state carries
exactly the fields the call started from. -/
noncomputable def recommendWithState (st : FittedState) (a b : Int) (n : Nat) :
    Except String (List RecRow) × FittedState :=
  (recommend st.sw st.movies a b n, ⟨st.sw, st.movies⟩)

/-- C5: `recommend` returns the sentinel error string iff at least one of the
two identifiers is absent from the identifier index built at fit time, and
returns a recommendation list (never the sentinel) when both are present. -/
theorem C5_notfound_iff (sw : List String) (movies : List Movie) (a b : Int)
    (n : Nat) :
    (recommend sw movies a b n = .error "One of the movie IDs not found." ↔
        dictLookup (id_to_index movies) a = none ∨
          dictLookup (id_to_index movies) b = none) ∧
      ((dictLookup (id_to_index movies) a ≠ none ∧
          dictLookup (id_to_index movies) b ≠ none) →
        ∃ rows, recommend sw movies a b n = .ok rows) := by
  cases ha : dictLookup (id_to_index movies) a with
  | none =>
      constructor
      · constructor
        · intro _; exact Or.inl rfl
        · intro _
          cases hb : dictLookup (id_to_index movies) b <;>
            simp [recommend, ha, hb]
      · intro hc
        exact absurd rfl hc.1
  | some i1 =>
      cases hb : dictLookup (id_to_index movies) b with
      | none =>
          constructor
          · constructor
            · intro _; exact Or.inr rfl
            · intro _; simp [recommend, ha, hb]
          · intro hc
            exact absurd rfl hc.2
      | some i2 =>
          constructor
          · constructor
            · intro hc
              rw [recommend, ha, hb] at hc
              exact absurd hc (by simp)
            · rintro (hc | hc) <;> exact absurd hc (by simp)
          · intro _
            exact ⟨_, by rw [recommend, ha, hb]⟩

/-- C5 witness: on a one-movie catalog, asking about the absent identifier 5
yields the sentinel string. -/
theorem C5_witness :
    recommend englishStopWords
        [{ id := 1, title := "A", overview := "", vote_average := 0,
           poster_path := "", genres_str := "", combined := "action" }]
        1 5 3 = .error "One of the movie IDs not found." :=
  (C5_notfound_iff englishStopWords
      [{ id := 1, title := "A", overview := "", vote_average := 0,
         poster_path := "", genres_str := "", combined := "action" }]
      1 5 3).1.mpr (Or.inr rfl)

theorem zipWith_min_self (v : List ℝ) : List.zipWith min v v = v := by
  induction v with
  | nil => rfl
  | cons x xs ih => rw [List.zipWith_cons_cons, min_self, ih]

/-- C6: `synthesize` (the source's `np.minimum`) takes two equal-length
non-negative rows to the row of element-wise minima, and on equal arguments
it is the identity. -/
theorem C6_synthesize_elementwise_min (u v : List ℝ)
    (hlen : u.length = v.length) (hu : ∀ x ∈ u, 0 ≤ x) (hv : ∀ x ∈ v, 0 ≤ x) :
    (synthesize u v).length = u.length ∧
      (∀ k, k < u.length →
        (synthesize u v).getD k 0 = min (u.getD k 0) (v.getD k 0)) ∧
      synthesize v v = v := by
  refine ⟨?_, ?_, ?_⟩
  · rw [synthesize, List.length_zipWith, hlen, Nat.min_self]
  · intro k hk
    have hkv : k < v.length := hlen ▸ hk
    have hkz : k < (List.zipWith min u v).length := by
      rw [List.length_zipWith, hlen, Nat.min_self]
      exact hkv
    rw [synthesize, List.getD_eq_getElem _ _ hkz, List.getD_eq_getElem _ _ hk,
      List.getD_eq_getElem _ _ hkv]
    exact List.getElem_zipWith ..
  · rw [synthesize]
    exact zipWith_min_self v

/-- C6 witness: the hybrid of `[0, 2]` and `[1, 0]` is `[0, 0]` elementwise. -/
theorem C6_witness :
    ([(0:ℝ), 2].length = [(1:ℝ), 0].length ∧
        (∀ x ∈ [(0:ℝ), 2], 0 ≤ x) ∧ ∀ x ∈ [(1:ℝ), 0], 0 ≤ x) ∧
      (synthesize [(0:ℝ), 2] [(1:ℝ), 0]).length = [(0:ℝ), 2].length ∧
        (∀ k, k < [(0:ℝ), 2].length →
          (synthesize [(0:ℝ), 2] [(1:ℝ), 0]).getD k 0 =
            min ([(0:ℝ), 2].getD k 0) ([(1:ℝ), 0].getD k 0)) ∧
        synthesize [(1:ℝ), 0] [(1:ℝ), 0] = [(1:ℝ), 0] :=
  ⟨⟨rfl, by norm_num, by norm_num⟩,
   C6_synthesize_elementwise_min [(0:ℝ), 2] [(1:ℝ), 0] rfl
     (by norm_num) (by norm_num)⟩

/-- C9: `recommend` is deterministic and mutation-free.  Sequential
composition on the same fitted instance: a second call with the same
arguments, run on whatever state the first call left behind, returns the
same result, and the state after each call is the state before it. -/
theorem C9_recommend_pure_and_deterministic (st : FittedState) (a b : Int)
    (n : Nat) :
    (recommendWithState st a b n).2 = st ∧
      (recommendWithState ((recommendWithState st a b n).2) a b n).1 =
        (recommendWithState st a b n).1 := by
  cases st
  exact ⟨rfl, rfl⟩

/-! ### Length and order of the selected indices -/

/-- Scores strictly ascend, or tie with ascending position. -/
def scoreLex (v : List ℝ) (i j : Nat) : Prop :=
  v.getD i 0 < v.getD j 0 ∨ (v.getD i 0 = v.getD j 0 ∧ i < j)

theorem insertIdx_length (v : List ℝ) (i : Nat) (l : List Nat) :
    (insertIdx v i l).length = l.length + 1 := by
  induction l with
  | nil => rfl
  | cons j rest ih =>
      rw [insertIdx]
      by_cases hle : v.getD j 0 ≤ v.getD i 0
      · rw [if_pos hle, List.length_cons, ih, List.length_cons]
      · rw [if_neg hle, List.length_cons, List.length_cons]

theorem insertIdx_mem (v : List ℝ) (i : Nat) (l : List Nat) (x : Nat) :
    x ∈ insertIdx v i l ↔ x = i ∨ x ∈ l := by
  induction l with
  | nil => simp [insertIdx]
  | cons j rest ih =>
      rw [insertIdx]
      by_cases hle : v.getD j 0 ≤ v.getD i 0
      · rw [if_pos hle]
        simp only [List.mem_cons, ih]
        tauto
      · rw [if_neg hle]
        simp only [List.mem_cons]

theorem insertIdx_pairwise (v : List ℝ) (i : Nat) (l : List Nat)
    (hp : l.Pairwise (scoreLex v)) (hlt : ∀ j ∈ l, j < i) :
    (insertIdx v i l).Pairwise (scoreLex v) := by
  induction l with
  | nil => simp [insertIdx]
  | cons j rest ih =>
      rw [List.pairwise_cons] at hp
      obtain ⟨hj, hrest⟩ := hp
      rw [insertIdx]
      by_cases hle : v.getD j 0 ≤ v.getD i 0
      · rw [if_pos hle, List.pairwise_cons]
        constructor
        · intro x hx
          rcases (insertIdx_mem v i rest x).mp hx with rfl | hx
          · rcases lt_or_eq_of_le hle with hlt2 | heq
            · exact Or.inl hlt2
            · exact Or.inr ⟨heq, hlt j (List.mem_cons_self j rest)⟩
          · exact hj x hx
        · exact ih hrest (fun x hx => hlt x (List.mem_cons_of_mem j hx))
      · rw [if_neg hle, List.pairwise_cons]
        push_neg at hle
        constructor
        · intro x hx
          rcases List.mem_cons.mp hx with rfl | hx
          · exact Or.inl hle
          · rcases hj x hx with h | ⟨heq, _⟩
            · exact Or.inl (lt_trans hle h)
            · exact Or.inl (heq ▸ hle)
        · exact List.pairwise_cons.mpr ⟨hj, hrest⟩

theorem argsort_fold_spec (v : List ℝ) (n : Nat) :
    ((List.range n).foldl (fun acc i => insertIdx v i acc) []).Pairwise
        (scoreLex v) ∧
      (∀ j ∈ (List.range n).foldl (fun acc i => insertIdx v i acc) [], j < n) ∧
      ((List.range n).foldl (fun acc i => insertIdx v i acc) []).length = n := by
  induction n with
  | zero => exact ⟨List.Pairwise.nil, by simp, rfl⟩
  | succ m ih =>
      obtain ⟨hp, hb, hl⟩ := ih
      rw [List.range_succ, List.foldl_append, List.foldl_cons, List.foldl_nil]
      refine ⟨insertIdx_pairwise v m _ hp hb, ?_, ?_⟩
      · intro j hj
        rcases (insertIdx_mem v m _ j).mp hj with rfl | hj
        · omega
        · exact Nat.lt_succ_of_lt (hb j hj)
      · rw [insertIdx_length, hl]

theorem argsort_pairwise (v : List ℝ) : (argsort v).Pairwise (scoreLex v) :=
  (argsort_fold_spec v v.length).1

theorem argsort_length (v : List ℝ) : (argsort v).length = v.length :=
  (argsort_fold_spec v v.length).2.2

theorem pySliceLast_length (k : Nat) (l : List Nat) (hk : 1 ≤ k) :
    (pySliceLast k l).length = min k l.length := by
  rw [pySliceLast, if_neg (by omega), List.length_drop]
  omega

theorem simScores_length (sw : List String) (movies : List Movie)
    (i1 i2 : Nat) : (simScores sw movies i1 i2).length = movies.length := by
  rw [simScores]
  simp [tfidfMatrix]

theorem topIndices_length (n : Nat) (sims : List ℝ) (hn : 1 ≤ n) :
    (topIndices n sims).length = min n sims.length := by
  rw [topIndices, List.length_reverse, pySliceLast_length _ _ hn,
    argsort_length]

/-- C2: claimed — the result length equals `min topN (N - 2)`, with the two
excluded items never padding the result.  What the code actually guarantees
(for positive `topN` and both identifiers present) is length
`min topN N` over the whole catalog of `N` rows: `argsort()[-top_n:]` slices
the full index array, in which the two excluded rows still sit with sentinel
score `-1`, so once `topN` exceeds `N - 2` the excluded rows themselves pad
the result. -/
theorem C2_result_length (sw : List String) (movies : List Movie) (a b : Int)
    (n : Nat) (i1 i2 : Nat)
    (h1 : dictLookup (id_to_index movies) a = some i1)
    (h2 : dictLookup (id_to_index movies) b = some i2) (hn : 1 ≤ n) :
    ∃ rows, recommend sw movies a b n = .ok rows ∧
      rows.length = min n movies.length := by
  refine ⟨_, by rw [recommend, h1, h2], ?_⟩
  rw [List.length_map, topIndices_length _ _ hn, simScores_length]

/-- C2 witness: three movies, both query identifiers present, `topN = 3`:
the result has length `min 3 3 = 3`. -/
theorem C2_witness :
    (dictLookup (id_to_index
        [{ id := 1, title := "A", overview := "", vote_average := 0,
           poster_path := "", genres_str := "", combined := "action" },
         { id := 2, title := "B", overview := "", vote_average := 0,
           poster_path := "", genres_str := "", combined := "action" },
         { id := 3, title := "C", overview := "", vote_average := 0,
           poster_path := "", genres_str := "", combined := "action" }]) 1 =
        some 0) ∧
      ∃ rows, recommend englishStopWords
          [{ id := 1, title := "A", overview := "", vote_average := 0,
             poster_path := "", genres_str := "", combined := "action" },
           { id := 2, title := "B", overview := "", vote_average := 0,
             poster_path := "", genres_str := "", combined := "action" },
           { id := 3, title := "C", overview := "", vote_average := 0,
             poster_path := "", genres_str := "", combined := "action" }]
          1 2 3 = .ok rows ∧ rows.length = min 3 3 :=
  ⟨rfl,
   C2_result_length englishStopWords
     [{ id := 1, title := "A", overview := "", vote_average := 0,
        poster_path := "", genres_str := "", combined := "action" },
      { id := 2, title := "B", overview := "", vote_average := 0,
        poster_path := "", genres_str := "", combined := "action" },
      { id := 3, title := "C", overview := "", vote_average := 0,
        poster_path := "", genres_str := "", combined := "action" }]
     1 2 3 0 1 rfl rfl (by omega)⟩

/-- C4: claimed — result sorted by non-increasing score with ties broken by
ascending catalog position.  The non-increasing part holds, but the
reversal `[::-1]` of the ascending argsort puts equal-score items in
DESCENDING catalog position: along the returned sequence, each later item
has score at most the earlier one, and on equal scores a strictly smaller
row index — i.e. the larger catalog position comes first. -/
theorem C4_sorted_desc_ties_desc_position (sw : List String)
    (movies : List Movie) (a b : Int) (n : Nat) (i1 i2 : Nat)
    (h1 : dictLookup (id_to_index movies) a = some i1)
    (h2 : dictLookup (id_to_index movies) b = some i2) :
    recommend sw movies a b n =
        .ok ((topIndices n (simScores sw movies i1 i2)).map
          (fun i => selectCols (movies.getD i default))) ∧
      List.Pairwise (fun i j =>
          (simScores sw movies i1 i2).getD j 0 ≤
              (simScores sw movies i1 i2).getD i 0 ∧
            ((simScores sw movies i1 i2).getD j 0 =
                (simScores sw movies i1 i2).getD i 0 → j < i))
        (topIndices n (simScores sw movies i1 i2)) := by
  constructor
  · rw [recommend, h1, h2]
  · rw [topIndices, List.pairwise_reverse]
    have hdrop : (pySliceLast n (argsort (simScores sw movies i1 i2))).Sublist
        (argsort (simScores sw movies i1 i2)) := by
      rw [pySliceLast]
      by_cases hn : n = 0
      · rw [if_pos hn]
      · rw [if_neg hn]
        exact List.drop_sublist _ _
    have hp := List.Pairwise.sublist hdrop
      (argsort_pairwise (simScores sw movies i1 i2))
    refine hp.imp ?_
    intro i j hij
    rcases hij with h | ⟨heq, hlt⟩
    · exact ⟨le_of_lt h, fun he => absurd (he ▸ h) (lt_irrefl _)⟩
    · exact ⟨le_of_eq heq, fun _ => hlt⟩

/-! ### Concrete runs of the full pipeline -/

/-- Catalog row constructor for the concrete runs. -/
def mov (i : Int) (t c : String) : Movie :=
  { id := i, title := t, overview := "", vote_average := 0,
    poster_path := "", genres_str := "", combined := c }

/-- Three movies whose combined features coincide. -/
def catalogU : List Movie :=
  [mov 1 "A" "action", mov 2 "B" "action", mov 3 "C" "action"]

/-- Four movies: two `action`, two `drama` — rows 2 and 3 tie. -/
def catalogT : List Movie :=
  [mov 1 "A" "action", mov 2 "B" "action", mov 3 "C" "drama",
   mov 4 "D" "drama"]

theorem idf_pos (sw : List String) (docs : List String) (t : String) :
    0 < idf sw docs t :=
  lt_of_lt_of_le one_pos (one_le_idf sw docs t)

theorem l2normalize_single (c : ℝ) (hc : 0 < c) : l2normalize [c] = [1] := by
  have hs : sumSq [c] = c * c := by simp [sumSq]
  have hne : sumSq [c] ≠ 0 := by
    rw [hs]
    positivity
  rw [l2normalize, if_neg hne, hs, List.map_cons, List.map_nil,
    Real.sqrt_mul_self hc.le, div_self (ne_of_gt hc)]

theorem l2normalize_pair_left (c : ℝ) (hc : 0 < c) :
    l2normalize [c, 0] = [1, 0] := by
  have hs : sumSq [c, 0] = c * c := by
    simp [sumSq]
  have hne : sumSq [c, 0] ≠ 0 := by
    rw [hs]
    positivity
  rw [l2normalize, if_neg hne, hs, List.map_cons, List.map_cons, List.map_nil,
    Real.sqrt_mul_self hc.le, div_self (ne_of_gt hc), zero_div]

theorem l2normalize_pair_right (c : ℝ) (hc : 0 < c) :
    l2normalize [0, c] = [0, 1] := by
  have hs : sumSq [0, c] = c * c := by
    simp [sumSq]
  have hne : sumSq [0, c] ≠ 0 := by
    rw [hs]
    positivity
  rw [l2normalize, if_neg hne, hs, List.map_cons, List.map_cons, List.map_nil,
    Real.sqrt_mul_self hc.le, div_self (ne_of_gt hc), zero_div]

theorem cosineSim_e1_e1 : cosineSim [(1:ℝ)] [1] = 1 := by
  rw [cosineSim, l2normalize_single 1 one_pos]
  simp [dot]

theorem cosineSim_pair_11 : cosineSim [(1:ℝ), 0] [1, 0] = 1 := by
  rw [cosineSim, l2normalize_pair_left 1 one_pos]
  simp [dot]

theorem cosineSim_pair_21 : cosineSim [(0:ℝ), 1] [1, 0] = 0 := by
  rw [cosineSim, l2normalize_pair_right 1 one_pos,
    l2normalize_pair_left 1 one_pos]
  simp [dot]

theorem analyze_action : analyze englishStopWords "action" = ["action"] := by
  decide

theorem analyze_drama : analyze englishStopWords "drama" = ["drama"] := by
  decide

theorem vocabulary_U :
    vocabulary englishStopWords ["action", "action", "action"] = ["action"] := by
  decide

theorem vocabulary_T :
    vocabulary englishStopWords ["action", "action", "drama", "drama"] =
      ["action", "drama"] := by
  decide

theorem rawVec_U :
    rawVec englishStopWords ["action", "action", "action"] "action" =
      [idf englishStopWords ["action", "action", "action"] "action"] := by
  rw [rawVec, vocabulary_U, List.map_cons, List.map_nil, analyze_action]
  have h1 : tf "action" ["action"] = 1 := by decide
  rw [h1, Nat.cast_one, one_mul]

theorem itemVector_U (i : Nat) (hi : i < 3) :
    itemVector englishStopWords ["action", "action", "action"] i = [1] := by
  have hd : (["action", "action", "action"] : List String).getD i "" =
      "action" := by
    interval_cases i <;> rfl
  rw [itemVector, hd, rawVec_U]
  exact l2normalize_single _ (idf_pos _ _ _)

theorem tfidfMatrix_U :
    tfidfMatrix englishStopWords ["action", "action", "action"] =
      [[1], [1], [1]] := by
  rw [tfidfMatrix]
  have hr : List.range (["action", "action", "action"] : List String).length =
      [0, 1, 2] := by decide
  rw [hr, List.map_cons, List.map_cons, List.map_cons, List.map_nil,
    itemVector_U 0 (by omega), itemVector_U 1 (by omega),
    itemVector_U 2 (by omega)]

theorem simScores_U :
    simScores englishStopWords catalogU 0 1 = [-1, -1, 1] := by
  have hdocs : catalogU.map Movie.combined = ["action", "action", "action"] :=
    by decide
  rw [simScores, hdocs, tfidfMatrix_U]
  have hhyb : synthesize ([[(1:ℝ)], [1], [1]].getD 0 [])
      ([[(1:ℝ)], [1], [1]].getD 1 []) = [1] := by
    rw [synthesize]
    norm_num
  rw [hhyb, List.map_cons, List.map_cons, List.map_cons, List.map_nil,
    cosineSim_e1_e1]
  rfl

theorem argsort_U : argsort [(-1:ℝ), -1, 1] = [0, 1, 2] := by
  rw [argsort]
  norm_num [insertIdx, List.range_succ]

/-- C1: claimed — `recommend(a, b, topN)` never returns `a` or `b`.  The
slice `argsort()[-top_n:]` runs over the full index array, in which the two
query rows still sit (with sentinel score `-1`, i.e. at the front of the
ascending order); once `top_n ≥ N - 1` they re-enter the selection.  On a
three-movie catalog, `recommend(1, 2, 3)` returns all three movies —
including both query movies — contradicting the method's own docstring
("Excludes the original input movies from results"). -/
theorem C1_failing_run :
    ∃ rows, recommend englishStopWords catalogU 1 2 3 = .ok rows ∧
      (1 : Int) ∈ rows.map RecRow.id ∧ (2 : Int) ∈ rows.map RecRow.id := by
  have h1 : dictLookup (id_to_index catalogU) 1 = some 0 := by decide
  have h2 : dictLookup (id_to_index catalogU) 2 = some 1 := by decide
  refine ⟨_, by rw [recommend, h1, h2], ?_⟩
  rw [simScores_U, topIndices, argsort_U]
  have hsl : pySliceLast 3 [0, 1, 2] = [0, 1, 2] := by decide
  rw [hsl]
  decide

/-- C2 counterexample: on the three-movie catalog, `recommend(1, 2, 2)`
returns 2 rows, not `min(topN, N - 2) = min(2, 1) = 1`: the excluded rows pad
the selection. -/
theorem C2_counterexample :
    ∃ rows, recommend englishStopWords catalogU 1 2 2 = .ok rows ∧
      rows.length = 2 ∧ rows.length ≠ min 2 (catalogU.length - 2) := by
  have h1 : dictLookup (id_to_index catalogU) 1 = some 0 := by decide
  have h2 : dictLookup (id_to_index catalogU) 2 = some 1 := by decide
  refine ⟨_, by rw [recommend, h1, h2], ?_⟩
  rw [simScores_U, topIndices, argsort_U]
  have hsl : pySliceLast 2 [0, 1, 2] = [1, 2] := by decide
  rw [hsl]
  decide

theorem rawVec_T_action :
    rawVec englishStopWords ["action", "action", "drama", "drama"] "action" =
      [idf englishStopWords ["action", "action", "drama", "drama"] "action",
        0] := by
  rw [rawVec, vocabulary_T, List.map_cons, List.map_cons, List.map_nil,
    analyze_action]
  have h1 : tf "action" ["action"] = 1 := by decide
  have h2 : tf "drama" ["action"] = 0 := by decide
  rw [h1, h2, Nat.cast_one, one_mul, Nat.cast_zero, zero_mul]

theorem rawVec_T_drama :
    rawVec englishStopWords ["action", "action", "drama", "drama"] "drama" =
      [0,
        idf englishStopWords ["action", "action", "drama", "drama"] "drama"] := by
  rw [rawVec, vocabulary_T, List.map_cons, List.map_cons, List.map_nil,
    analyze_drama]
  have h1 : tf "action" ["drama"] = 0 := by decide
  have h2 : tf "drama" ["drama"] = 1 := by decide
  rw [h1, h2, Nat.cast_one, one_mul, Nat.cast_zero, zero_mul]

theorem itemVector_T01 (i : Nat) (hi : i < 2) :
    itemVector englishStopWords ["action", "action", "drama", "drama"] i =
      [1, 0] := by
  have hd : (["action", "action", "drama", "drama"] : List String).getD i "" =
      "action" := by
    interval_cases i <;> rfl
  rw [itemVector, hd, rawVec_T_action]
  exact l2normalize_pair_left _ (idf_pos _ _ _)

theorem itemVector_T23 (i : Nat) (hi : 2 ≤ i) (hi4 : i < 4) :
    itemVector englishStopWords ["action", "action", "drama", "drama"] i =
      [0, 1] := by
  have hd : (["action", "action", "drama", "drama"] : List String).getD i "" =
      "drama" := by
    interval_cases i <;> rfl
  rw [itemVector, hd, rawVec_T_drama]
  exact l2normalize_pair_right _ (idf_pos _ _ _)

theorem tfidfMatrix_T :
    tfidfMatrix englishStopWords ["action", "action", "drama", "drama"] =
      [[1, 0], [1, 0], [0, 1], [0, 1]] := by
  rw [tfidfMatrix]
  have hr :
      List.range
          (["action", "action", "drama", "drama"] : List String).length =
        [0, 1, 2, 3] := by decide
  rw [hr, List.map_cons, List.map_cons, List.map_cons, List.map_cons,
    List.map_nil, itemVector_T01 0 (by omega), itemVector_T01 1 (by omega),
    itemVector_T23 2 (by omega) (by omega), itemVector_T23 3 (by omega)
      (by omega)]

theorem simScores_T :
    simScores englishStopWords catalogT 0 1 = [-1, -1, 0, 0] := by
  have hdocs : catalogT.map Movie.combined =
      ["action", "action", "drama", "drama"] := by decide
  rw [simScores, hdocs, tfidfMatrix_T]
  have hhyb : synthesize ([[(1:ℝ), 0], [1, 0], [0, 1], [0, 1]].getD 0 [])
      ([[(1:ℝ), 0], [1, 0], [0, 1], [0, 1]].getD 1 []) = [1, 0] := by
    rw [synthesize]
    norm_num
  rw [hhyb, List.map_cons, List.map_cons, List.map_cons, List.map_cons,
    List.map_nil, cosineSim_pair_11, cosineSim_pair_21]
  rfl

theorem argsort_T : argsort [(-1:ℝ), -1, 0, 0] = [0, 1, 2, 3] := by
  rw [argsort]
  norm_num [insertIdx, List.range_succ]

/-- C4 counterexample: rows 2 and 3 of the four-movie catalog have equal
similarity score 0 against the hybrid of rows 0 and 1, yet
`recommend(1, 2, 2)` returns movie 4 (row 3) before movie 3 (row 2): ties
are broken by DESCENDING catalog position, not ascending. -/
theorem C4_counterexample :
    (∃ rows, recommend englishStopWords catalogT 1 2 2 = .ok rows ∧
        rows.map RecRow.id = [4, 3]) ∧
      (simScores englishStopWords catalogT 0 1).getD 2 0 =
        (simScores englishStopWords catalogT 0 1).getD 3 0 := by
  constructor
  · have h1 : dictLookup (id_to_index catalogT) 1 = some 0 := by decide
    have h2 : dictLookup (id_to_index catalogT) 2 = some 1 := by decide
    refine ⟨_, by rw [recommend, h1, h2], ?_⟩
    rw [simScores_T, topIndices, argsort_T]
    have hsl : pySliceLast 2 [0, 1, 2, 3] = [2, 3] := by decide
    rw [hsl]
    decide
  · rw [simScores_T]
    norm_num

/-- C4 witness: the amended ordering theorem applied to the four-movie
catalog with both identifiers present. -/
theorem C4_witness :
    recommend englishStopWords catalogT 1 2 2 =
        .ok ((topIndices 2 (simScores englishStopWords catalogT 0 1)).map
          (fun i => selectCols (catalogT.getD i default))) ∧
      List.Pairwise (fun i j =>
          (simScores englishStopWords catalogT 0 1).getD j 0 ≤
              (simScores englishStopWords catalogT 0 1).getD i 0 ∧
            ((simScores englishStopWords catalogT 0 1).getD j 0 =
                (simScores englishStopWords catalogT 0 1).getD i 0 → j < i))
        (topIndices 2 (simScores englishStopWords catalogT 0 1)) :=
  C4_sorted_desc_ties_desc_position englishStopWords catalogT 1 2 2 0 1 rfl
    rfl

end MovieMixer
